import Mathlib

/-
Verification of the QuickServe conversational ordering core
(src/app/api/chat/route.ts, the POST chat handler) against its
natural-language specification.  The handler is shallowly embedded as
pure Lean functions over an explicit database state: machine numbers are
Nat (integer currency units), the Prisma store becomes lists of records,
and the JS regex guardrails become decidable string scanners.
-/

namespace QuickServe

/-! ## String utilities mirroring the JS regex/string primitives -/

/-- ASCII word character, the JS regex `\w` class `[A-Za-z0-9_]`. -/
def jsWordChar (c : Char) : Bool :=
  (0x61 ≤ c.toNat && c.toNat ≤ 0x7a) || (0x41 ≤ c.toNat && c.toNat ≤ 0x5a) ||
  (0x30 ≤ c.toNat && c.toNat ≤ 0x39) || c == '_'

/-- ASCII alphanumeric, the `a-zA-Z0-9` part of the faulty-message class. -/
def asciiAlnum (c : Char) : Bool :=
  (0x61 ≤ c.toNat && c.toNat ≤ 0x7a) || (0x41 ≤ c.toNat && c.toNat ≤ 0x5a) ||
  (0x30 ≤ c.toNat && c.toNat ≤ 0x39)

/-- Devanagari block `ऀ-ॿ` used by the locale and faulty-message checks. -/
def devanagariChar (c : Char) : Bool :=
  0x900 ≤ c.toNat && c.toNat ≤ 0x97f

/-- ASCII lowercase mapping.  JS `toLowerCase()` also folds non-ASCII
letters; the menu names and regex keywords the handler compares are
ASCII or Devanagari (case-less), where this agrees with JS. -/
def asciiLower (c : Char) : Char :=
  if 0x41 ≤ c.toNat && c.toNat ≤ 0x5a then Char.ofNat (c.toNat + 32) else c

/-- `String.prototype.toLowerCase()`. -/
def jsLower (s : String) : String :=
  String.mk (s.toList.map asciiLower)

/-- JS regex `\s` / `String.prototype.trim` whitespace class. -/
def jsWhitespace (c : Char) : Bool :=
  c == ' ' || c == '\t' || c == '\n' || c == '\r' ||
  c.toNat == 0xb || c.toNat == 0xc || c.toNat == 0xa0 || c.toNat == 0x1680 ||
  (0x2000 ≤ c.toNat && c.toNat ≤ 0x200a) || c.toNat == 0x2028 || c.toNat == 0x2029 ||
  c.toNat == 0x202f || c.toNat == 0x205f || c.toNat == 0x3000 || c.toNat == 0xfeff

/-- JS `String.prototype.trim` on a character list. -/
def jsTrim (s : List Char) : List Char :=
  ((s.dropWhile jsWhitespace).reverse.dropWhile jsWhitespace).reverse

/-- JS `String.prototype.length` counts UTF-16 code units. -/
def utf16Len (s : List Char) : Nat :=
  s.foldl (fun n c => n + (if c.toNat < 0x10000 then 1 else 2)) 0

/-- Does the pattern occur as a contiguous run inside the haystack
(unanchored regex literal / `String.prototype.includes`)? -/
def hasSubList (pat : List Char) : List Char → Bool
  | [] => pat.isEmpty
  | c :: rest => pat.isPrefixOf (c :: rest) || hasSubList pat rest

/-- Substring test on strings. -/
def hasSubstr (hay pat : String) : Bool :=
  hasSubList pat.toList hay.toList

/-- One position of a `\b pat \b` regex match: the pattern starts here, the
previous character (if any) is not a word character, and the character
after the match (if any) is not a word character. -/
def boundaryHere (pat : List Char) (prev : Option Char) (hay : List Char) : Bool :=
  pat.isPrefixOf hay
    && (match prev with | none => true | some c => !jsWordChar c)
    && (match hay.drop pat.length with | [] => true | c :: _ => !jsWordChar c)

/-- Scan for a word-bounded occurrence of the pattern. -/
def boundaryScan (pat : List Char) (prev : Option Char) : List Char → Bool
  | [] => boundaryHere pat prev []
  | c :: rest => boundaryHere pat prev (c :: rest) || boundaryScan pat (some c) rest

/-- `\b pat \b` matched anywhere in the haystack. -/
def hasWordBounded (hay pat : String) : Bool :=
  boundaryScan pat.toList none hay.toList

/-- A character the JS regex `.` matches (everything but line terminators). -/
def dotChar (c : Char) : Bool :=
  !(c == '\n' || c == '\r' || c.toNat == 0x2028 || c.toNat == 0x2029)

/-- Tail of an `a.*b` match: zero or more `.` characters followed by `b`. -/
def seqAfter (b : List Char) : List Char → Bool
  | [] => b.isEmpty
  | c :: rest => b.isPrefixOf (c :: rest) || (dotChar c && seqAfter b rest)

/-- Unanchored `a.*b` regex match. -/
def dotStarSeq (a b : List Char) : List Char → Bool
  | [] => false
  | c :: rest =>
    (a.isPrefixOf (c :: rest) && seqAfter b ((c :: rest).drop a.length))
      || dotStarSeq a b rest

/-! ## Guardrail classifier (route.ts `isPromptInjection` / `isAbusive` /
`isFaultyMessage` / `isMenuIntent` / `detectLocale` / `localizedFallback`) -/

/-- The alternatives of the prompt-injection regex, with the nested
`(all|previous|prior)` group expanded. -/
def injectionPhrases : List String :=
  ["ignore all instructions", "ignore previous instructions", "ignore prior instructions",
   "reveal system", "reveal prompt", "reveal secret", "developer message", "api key",
   "token", "password", "drop table", "bypass", "jailbreak", "sudo", "root access",
   "export env"]

def isPromptInjection (text : String) : Bool :=
  injectionPhrases.any (fun p => hasSubstr (jsLower text) p)

/-- The word alternatives of the abuse regex, each wrapped in `\b...\b`. -/
def abusePhrases : List String :=
  ["idiot", "stupid", "dumb", "fool", "hate you", "shut up", "moron", "bitch", "fuck you"]

def isAbusive (text : String) : Bool :=
  abusePhrases.any (fun w => hasWordBounded (jsLower text) w)

/-- `^[^a-zA-Z0-9ऀ-ॿ\s]{6,}$` on the trimmed text. -/
def faultySymbolRun (s : List Char) : Bool :=
  6 ≤ utf16Len s && s.all (fun c => !(asciiAlnum c || devanagariChar c || jsWhitespace c))

def isFaultyMessage (text : String) : Bool :=
  let t := jsTrim text.toList
  t.isEmpty || utf16Len t < 2 || faultySymbolRun t

/-- The literal alternatives of the menu-intent regex (the two `.*`
alternatives are handled separately below). -/
def menuPhrases : List String :=
  ["menu", "show menu", "see menu", "special", "recommend", "catalog", "list items",
   "मेनु", "मेन्यू", "मेनू", "मेनु देख", "मेन्यू दिख", "मेन्यू देख", "menu please", "items"]

def isMenuIntent (text : String) : Bool :=
  let t := (jsLower text).toList
  menuPhrases.any (fun p => hasSubList p.toList t)
    || dotStarSeq ("what".toList) ("available".toList) t
    || dotStarSeq ("what".toList) ("have".toList) t

inductive Locale where
  | en | ne | hi
deriving DecidableEq, Repr

/-- The Nepali keyword alternatives used to split Devanagari text. -/
def nepaliHints : List String :=
  ["कृपया", "धन्यवाद", "छ", "होस्", "यहाँ", "अर्डर", "तपाईं"]

def detectLocale (text : String) : Locale :=
  let t := text.toList
  if t.any devanagariChar then
    if nepaliHints.any (fun w => hasSubList w.toList t) then .ne else .hi
  else .en

inductive FallbackKind where
  | safe | abuse | clarify
deriving DecidableEq, Repr

def localizedFallback (locale : Locale) (kind : FallbackKind) : String :=
  match locale, kind with
  | .ne, .safe => "म केवल अर्डर सम्बन्धी सहयोग गर्न सक्छु। मेनु, परिमाण, अर्डर स्थिति, र भुक्तानीमा मद्दत गर्छु। 🍽️"
  | .ne, .abuse => "म मद्दत गर्न तयार छु, तर सभ्य भाषामा कुरा गरौं। के अर्डरमा मद्दत चाहिन्छ? 🙏"
  | .ne, .clarify => "म बुझिनँ। कृपया मेनु आइटम, संख्या, टेबल, वा अर्डर स्थिति स्पष्ट रूपमा लेख्नुहोस्।"
  | .hi, .safe => "मैं सिर्फ ऑर्डर से जुड़ी मदद कर सकता हूं: मेन्यू, मात्रा, ऑर्डर स्टेटस और पेमेंट। 🍽️"
  | .hi, .abuse => "मैं मदद के लिए यहां हूं, कृपया सम्मानजनक भाषा रखें। क्या मैं ऑर्डर में मदद करूं? 🙏"
  | .hi, .clarify => "मैं समझ नहीं पाया। कृपया आइटम का नाम, मात्रा, टेबल या ऑर्डर स्टेटस साफ लिखें।"
  | .en, .safe => "I can only help with ordering: menu, quantity, order status, payment, and table flow. 🍽️"
  | .en, .abuse => "I’m here to help, let’s keep it respectful. Want help with your order? 🙏"
  | .en, .clarify => "I didn’t get that. Please share item name, quantity, table, or ask order status clearly."

inductive Guardrail where
  | promptInjection | abuse | faultyInput
deriving DecidableEq, Repr

/-- The guardrail verdict, in the fixed order the handler tests:
injection first, abuse second, unparseability third. -/
def guardVerdict (text : String) : Option Guardrail :=
  if isPromptInjection text then some .promptInjection
  else if isAbusive text then some .abuse
  else if isFaultyMessage text then some .faultyInput
  else none

/-! ## Data model (tenant menu, cart, actions) -/

/-- A menu item as the handler reads it: id, name, numeric price in
integer currency units. -/
structure MenuItem where
  id : Nat
  name : String
  price : Nat
deriving DecidableEq, Repr

/-- One cart line as stored in the session cart JSON:
`{id, name, price, qty, total}`. -/
structure CartLine where
  id : Nat
  name : String
  price : Nat
  qty : Nat
  total : Nat
deriving DecidableEq, Repr

/-- The six allowed chat actions.  `addItem` carries the qty already run
through `normalizeAction` or the fallback path; table references stay raw
strings to be resolved per action. -/
inductive Action where
  | addItem (name : String) (qty : Nat)
  | removeItem (name : String)
  | placeOrder (tableId : Option String)
  | updateOrder (tableId : Option String)
  | confirmPayment (tableId : Option String)
  | cancelOrder (tableId : Option String)
deriving DecidableEq, Repr

/-! ## Cart reducer (route.ts ADD_ITEM / REMOVE_ITEM processing) -/

/-- `tenant.menuCategories.flatMap(c => c.items).find(i => i.name.toLowerCase() === name.toLowerCase())` -/
def findMenuItem (menu : List MenuItem) (name : String) : Option MenuItem :=
  menu.find? (fun i => jsLower i.name == jsLower name)

/-- Merge a quantity of menu item `m` into the cart: bump the first line
with the same id (recomputing its total from the menu price), else append
a fresh line. -/
def bumpFirst (m : MenuItem) (q : Nat) : List CartLine → List CartLine
  | [] => [⟨m.id, m.name, m.price, q, q * m.price⟩]
  | c :: rest =>
    if c.id == m.id then
      { c with qty := c.qty + q, total := (c.qty + q) * m.price } :: rest
    else c :: bumpFirst m q rest

/-- The ADD_ITEM branch.  A name with no menu match is silently ignored;
the JS `action.qty || 1` makes a zero qty behave as 1. -/
def addToCart (menu : List MenuItem) (cart : List CartLine) (name : String) (qty : Nat) :
    List CartLine :=
  match findMenuItem menu name with
  | none => cart
  | some m => bumpFirst m (if qty == 0 then 1 else qty) cart

/-- The REMOVE_ITEM branch: drop every line whose name matches
case-insensitively. -/
def removeFromCart (cart : List CartLine) (name : String) : List CartLine :=
  cart.filter (fun c => jsLower c.name != jsLower name)

/-- The cart reducer: only ADD_ITEM/REMOVE_ITEM touch the cart; the other
actions are consumed by the order reconciler. -/
def applyCartAction (menu : List MenuItem) (cart : List CartLine) : Action → List CartLine
  | .addItem n q => addToCart menu cart n q
  | .removeItem n => removeFromCart cart n
  | _ => cart

def runCart (menu : List MenuItem) (cart : List CartLine) (acts : List Action) : List CartLine :=
  acts.foldl (applyCartAction menu) cart

/-- The spec's cart invariant: `lineTotal == unitPrice * qty`, `qty > 0`,
and menuItemId unique within the cart. -/
def cartInv (cart : List CartLine) : Prop :=
  (∀ c ∈ cart, c.total = c.price * c.qty ∧ 0 < c.qty) ∧ (cart.map CartLine.id).Nodup

instance (cart : List CartLine) : Decidable (cartInv cart) := by
  unfold cartInv; infer_instance

/-- Price agreement between a cart and the menu snapshot: a line whose id
names a menu item carries that item's current price. -/
def menuConsistent (menu : List MenuItem) (cart : List CartLine) : Prop :=
  ∀ c ∈ cart, ∀ m ∈ menu, m.id = c.id → c.price = m.price

instance (menu : List MenuItem) (cart : List CartLine) : Decidable (menuConsistent menu cart) := by
  unfold menuConsistent; infer_instance

/-! ## Fallback intent extractor (route.ts lines 547-620, oracle disabled) -/

def placeWords : List String := ["place", "confirm", "checkout", "order now", "done", "submit"]

def cancelWords : List String := ["cancel", "abort", "stop order"]

def payWords : List String := ["paid", "payment done", "payment complete", "i paid"]

/-- The deterministic fallback parser used whenever the oracle yields no
valid action: one ADD_ITEM(qty=1) per menu item whose name occurs in the
lowercased message, then PLACE_ORDER / CANCEL_ORDER / CONFIRM_PAYMENT on
keyword matches.  `cart` is the session cart as parsed at the start of
the turn (the PLACE keyword only fires on a non-empty cart or a mention). -/
def fallbackActions (menu : List MenuItem) (msg : String) (requestLabel : Option String)
    (cart : List CartLine) : List Action :=
  let text := jsLower msg
  let mentioned := menu.filter (fun i => hasSubstr text (jsLower i.name))
  let adds := mentioned.map (fun i => Action.addItem i.name 1)
  let place :=
    if placeWords.any (fun w => hasSubstr text w) && (!cart.isEmpty || !mentioned.isEmpty)
    then [Action.placeOrder requestLabel] else []
  let cancel :=
    if cancelWords.any (fun w => hasSubstr text w)
    then [Action.cancelOrder requestLabel] else []
  let pay :=
    if payWords.any (fun w => hasSubstr text w)
    then [Action.confirmPayment requestLabel] else []
  adds ++ place ++ cancel ++ pay

/-! ## Orders, tables, chat sessions, database state -/

inductive OrderStatus where
  | confirmed | preparing | ready | outForDelivery | paid | cancelled
deriving DecidableEq, Repr

/-- The terminal set `{PAID, CANCELLED}` used by every
`status: { notIn: ["PAID", "CANCELLED"] }` filter. -/
def OrderStatus.isTerminal : OrderStatus → Bool
  | .paid => true
  | .cancelled => true
  | _ => false

inductive PaymentStatus where
  | pending | paid
deriving DecidableEq, Repr

inductive TableStatus where
  | available | occupied
deriving DecidableEq, Repr

structure OrderItem where
  menuItemId : Nat
  itemName : String
  unitPrice : Nat
  quantity : Nat
  total : Nat
deriving DecidableEq, Repr

structure Order where
  id : Nat
  orderNumber : Nat
  tableId : Option Nat
  status : OrderStatus
  paymentStatus : PaymentStatus
  items : List OrderItem
  subtotal : Nat
  serviceCharge : Nat
  tax : Nat
  total : Nat
  notes : String
deriving DecidableEq, Repr

structure Table where
  id : Nat
  label : String
  status : TableStatus
deriving DecidableEq, Repr

inductive Sender where
  | user | bot
deriving DecidableEq, Repr

/-- A persisted chat message; guardrail replies carry their kind as the
metadata side-channel annotation. -/
structure ChatMsg where
  sender : Sender
  content : String
  guardrail : Option Guardrail
deriving DecidableEq, Repr

inductive SessionState where
  | browsing | ordering | confirming | completed
deriving DecidableEq, Repr

/-- A chat session row; the cart is stored JSON-encoded in the DB and is
modelled here already parsed to its list form. -/
structure ChatSession where
  id : Nat
  state : SessionState
  cart : List CartLine
  messages : List ChatMsg
deriving DecidableEq, Repr

/-- The tenant-scoped slice of the store a chat turn touches.  `orders`
is kept newest-first, so Prisma's `findFirst` with
`orderBy: { createdAt: "desc" }` becomes `List.find?`. -/
structure Db where
  orders : List Order
  tables : List Table
  session : ChatSession
  nextOrderNumber : Nat
deriving DecidableEq, Repr

/-! ## Table-reference resolution -/

/-- Modelled from the spec: `extractPrimaryTableLabel` (lib/tableGroups is
imported by the handler but absent from the sources) resolves a raw table
reference to the primary table label; an empty or whitespace-only
reference resolves to no label, anything else to the trimmed label. -/
def extractPrimaryTableLabel (raw : String) : Option String :=
  let t := jsTrim raw.toList
  if t.isEmpty then none else some (String.mk t)

/-- JS `a || b` on an optional string, where the empty string is falsy. -/
def jsOr (a : Option String) (b : String) : String :=
  match a with
  | none => b
  | some s => if s == "" then b else s

/-- `extractPrimaryTableLabel(String(action.tableId || data.tableLabel || ""))` -/
def resolvedLabel (actionTableId requestLabel : Option String) : Option String :=
  extractPrimaryTableLabel (jsOr actionTableId (jsOr requestLabel ""))

/-! ## Order reconciler: PLACE_ORDER / UPDATE_ORDER transaction body -/

def cartSubtotal (cart : List CartLine) : Nat :=
  cart.foldl (fun s c => s + c.total) 0

/-- `Math.round(n * (pct / 100))` for natural `n` and integer percent
`pct`: the exact rational rounds half away from zero, which on
nonnegative input is `⌊n·pct/100 + 1/2⌋ = (n·pct + 50) / 100`. -/
def roundPct (n pct : Nat) : Nat := (n * pct + 50) / 100

/-- `findFirst` of a non-terminal order bound to the given table,
newest first. -/
def openOrderForTable (orders : List Order) (tid : Nat) : Option Order :=
  orders.find? (fun o => o.tableId == some tid && !o.status.isTerminal)

def newOrderItem (c : CartLine) : OrderItem :=
  ⟨c.id, c.name, c.price, c.qty, c.total⟩

/-- Merge one cart line into the order's item list: the first item with
the same menuItemId has its quantity bumped and its total recomputed from
its snapshotted unit price; otherwise the line is appended as a new item. -/
def mergeCartLine : List OrderItem → CartLine → List OrderItem
  | [], c => [newOrderItem c]
  | i :: rest, c =>
    if i.menuItemId == c.id then
      { i with quantity := i.quantity + c.qty, total := (i.quantity + c.qty) * i.unitPrice }
        :: rest
    else i :: mergeCartLine rest c

def mergeCart (items : List OrderItem) (cart : List CartLine) : List OrderItem :=
  cart.foldl mergeCartLine items

/-- The `CHAT_SESSION:<id>` back-reference embedded in order notes. -/
def sessionTag (sid : Nat) : String := "CHAT_SESSION:" ++ toString sid

/-- Keep the notes if they already carry this session's tag, otherwise
append it (with a separating space when the notes are non-empty). -/
def tagNotes (notes : String) (sid : Nat) : String :=
  if hasSubstr notes (sessionTag sid) then notes
  else if notes == "" then sessionTag sid
  else notes ++ " " ++ sessionTag sid

def setTableStatus (tables : List Table) (tid : Nat) (st : TableStatus) : List Table :=
  tables.map (fun t => if t.id == tid then { t with status := st } else t)

def replaceOrder (orders : List Order) (o : Order) : List Order :=
  orders.map (fun p => if p.id == o.id then o else p)

/-- A surrogate row id for a freshly created order. -/
def freshOrderId (orders : List Order) : Nat :=
  orders.foldl (fun m o => max m (o.id + 1)) 0

structure PlaceResult where
  order : Order
  db : Db
deriving DecidableEq, Repr

/-- The PLACE_ORDER/UPDATE_ORDER transaction body (route.ts lines
768-881): when a table is bound and carries an open order, merge the
cart into it and recompute totals from the merged subtotal; otherwise
create a new order whose number comes from the tenant-scoped sequence.
The order number allocator `nextOrderNumberForTenant` (lib/orders) is
absent from the sources and is modelled from the spec as a tenant-scoped
monotonic counter carried in `Db.nextOrderNumber`. -/
def placeTxBody (svcPct taxPct : Nat) (cart : List CartLine) (tid : Option Nat) (db : Db) :
    PlaceResult :=
  let sub := cartSubtotal cart
  let openO := match tid with
    | some t => openOrderForTable db.orders t
    | none => none
  match openO with
  | some o =>
    let items := mergeCart o.items cart
    let nextSubtotal := o.subtotal + sub
    let nextService := roundPct nextSubtotal svcPct
    let nextTax := roundPct nextSubtotal taxPct
    let nextTotal := nextSubtotal + nextService + nextTax
    let o' := { o with
      items := items, subtotal := nextSubtotal, serviceCharge := nextService,
      tax := nextTax, total := nextTotal, status := .confirmed,
      notes := tagNotes o.notes db.session.id }
    let tables := match tid with
      | some t => setTableStatus db.tables t .occupied
      | none => db.tables
    ⟨o', { db with orders := replaceOrder db.orders o', tables := tables }⟩
  | none =>
    let serviceCharge := roundPct sub svcPct
    let tax := roundPct sub taxPct
    let total := sub + serviceCharge + tax
    let num := db.nextOrderNumber
    let o : Order :=
      { id := freshOrderId db.orders, orderNumber := num, tableId := tid,
        status := .confirmed, paymentStatus := .pending,
        items := cart.map newOrderItem,
        subtotal := sub, serviceCharge := serviceCharge, tax := tax, total := total,
        notes := sessionTag db.session.id }
    let tables := match tid with
      | some t => setTableStatus db.tables t .occupied
      | none => db.tables
    ⟨o, { db with orders := o :: db.orders, tables := tables, nextOrderNumber := num + 1 }⟩

/-! ## Optimistic retry loop around the transaction -/

inductive TxErr where
  | p2002
  | other (code : Nat)
deriving DecidableEq, Repr

instance {ε α : Type} [DecidableEq ε] [DecidableEq α] : DecidableEq (Except ε α)
  | .error e1, .error e2 =>
    if h : e1 = e2 then isTrue (by rw [h])
    else isFalse (by intro hh; injection hh; contradiction)
  | .error _, .ok _ => isFalse (fun hh => Except.noConfusion hh)
  | .ok _, .error _ => isFalse (fun hh => Except.noConfusion hh)
  | .ok a1, .ok a2 =>
    if h : a1 = a2 then isTrue (by rw [h])
    else isFalse (by intro hh; injection hh; contradiction)

/-- One attempt of the place/update transaction with the unique
constraint made explicit: creating an order whose allocated number
collides with an existing order's number raises Prisma error P2002
(another actor won the sequence race between attempts). -/
def placeTxAttempt (svcPct taxPct : Nat) (cart : List CartLine) (tid : Option Nat) (db : Db) :
    Except TxErr PlaceResult :=
  let openO := match tid with
    | some t => openOrderForTable db.orders t
    | none => none
  match openO with
  | some _ => .ok (placeTxBody svcPct taxPct cart tid db)
  | none =>
    if db.orders.any (fun o => o.orderNumber == db.nextOrderNumber)
    then .error .p2002
    else .ok (placeTxBody svcPct taxPct cart tid db)

/-- `for (let attempt = 0; attempt < 3; attempt++) { try ... catch }`:
a P2002 at attempts 0 and 1 re-runs the whole transaction; any other
error, or a P2002 on the final attempt, propagates out of the loop. -/
def retryPlace (tx : Nat → Except TxErr PlaceResult) : Except TxErr PlaceResult :=
  match tx 0 with
  | .ok r => .ok r
  | .error e =>
    if e = .p2002 then
      match tx 1 with
      | .ok r => .ok r
      | .error e2 =>
        if e2 = .p2002 then tx 2 else .error e2
    else .error e

/-! ## CANCEL_ORDER / CONFIRM_PAYMENT branch -/

inductive CloseKind where
  | cancelOrder | confirmPayment
deriving DecidableEq, Repr

/-- The label of the table an order is bound to, if any (Prisma's
relation filter `table: { label: ... }` never matches an order without a
table). -/
def orderTableLabel (tables : List Table) (o : Order) : Option String :=
  o.tableId.bind (fun t => (tables.find? (fun tb => tb.id == t)).map Table.label)

/-- `findFirst` of the target order for cancel/pay: the most recent
non-terminal order, restricted to the resolved table label when one is
present and unrestricted otherwise. -/
def targetOrder (db : Db) (lbl : Option String) : Option Order :=
  db.orders.find? (fun o =>
    !o.status.isTerminal &&
    (match lbl with
     | some l => orderTableLabel db.tables o == some l
     | none => true))

structure CloseResult where
  closed : Option Order
  db : Db
deriving DecidableEq, Repr

/-- The CANCEL_ORDER/CONFIRM_PAYMENT branch (route.ts lines 658-735):
transition the target order to CANCELLED/PAID, free its table when no
other non-terminal order still references it (the count runs after the
status update), and complete the issuing session with its cart cleared.
When no target exists the turn only produces a message and mutates
nothing. -/
def closeStatus : CloseKind → OrderStatus
  | .cancelOrder => .cancelled
  | .confirmPayment => .paid

def closeOrderBranch (kind : CloseKind) (lbl : Option String) (db : Db) : CloseResult :=
  match targetOrder db lbl with
  | none => ⟨none, db⟩
  | some o =>
    let o' := { o with
      status := closeStatus kind,
      paymentStatus := match kind with
        | .confirmPayment => .paid
        | .cancelOrder => o.paymentStatus }
    let orders := replaceOrder db.orders o'
    let tables := match o.tableId with
      | none => db.tables
      | some t =>
        let otherActive :=
          (orders.filter (fun p =>
            p.tableId == some t && !p.status.isTerminal && p.id != o.id)).length
        if otherActive == 0 then setTableStatus db.tables t .available else db.tables
    let sess := { db.session with state := .completed, cart := [] }
    ⟨some o', { db with orders := orders, tables := tables, session := sess }⟩

/-! ## The per-turn action loop and session update -/

structure TurnState where
  db : Db
  updatedCart : List CartLine
  orderPlaced : Bool
  orderDetails : Option Order
  forceSessionCompleted : Bool
deriving DecidableEq, Repr

def closeStep (kind : CloseKind) (tid requestLabel : Option String) (st : TurnState) :
    TurnState :=
  let lbl := resolvedLabel tid requestLabel
  let r := closeOrderBranch kind lbl st.db
  match r.closed with
  | some _ =>
    { st with
      db := r.db, updatedCart := [], orderPlaced := false, orderDetails := none,
      forceSessionCompleted := true }
  | none => st

def placeStep (svcPct taxPct : Nat) (tid requestLabel : Option String) (st : TurnState) :
    TurnState :=
  if st.updatedCart.isEmpty then st
  else
    let lbl := resolvedLabel tid requestLabel
    let tableId := lbl.bind (fun l =>
      (st.db.tables.find? (fun t => t.label == l)).map Table.id)
    let r := placeTxBody svcPct taxPct st.updatedCart tableId st.db
    { st with db := r.db, updatedCart := [], orderPlaced := true, orderDetails := some r.order }

/-- One iteration of the `for (const action of actions)` loop.  The
cancel/pay branch is skipped once `orderPlaced` is set; the place/update
branch is skipped on an empty cart. -/
def stepAction (menu : List MenuItem) (svcPct taxPct : Nat) (requestLabel : Option String)
    (st : TurnState) : Action → TurnState
  | .addItem n q => { st with updatedCart := addToCart menu st.updatedCart n q }
  | .removeItem n => { st with updatedCart := removeFromCart st.updatedCart n }
  | .cancelOrder tid =>
    if st.orderPlaced then st else closeStep .cancelOrder tid requestLabel st
  | .confirmPayment tid =>
    if st.orderPlaced then st else closeStep .confirmPayment tid requestLabel st
  | .placeOrder tid => placeStep svcPct taxPct tid requestLabel st
  | .updateOrder tid => placeStep svcPct taxPct tid requestLabel st

structure ChatResponse where
  message : String
  cart : List CartLine
  orderPlaced : Bool
  orderDetails : Option Order
  openMenuWizard : Bool
deriving DecidableEq, Repr

/-- The end-of-turn session write and response (route.ts lines 905-964).
The state transition rule: COMPLETED wins when a cancel/pay ran this
turn, else CONFIRMING when an order was placed, else ORDERING on a
non-empty cart, else BROWSING.  The final bot message text is
presentation-only narration and is modelled as an empty string. -/
def finishTurn (openWizard : Bool) (st : TurnState) : Db × ChatResponse :=
  let nextState : SessionState :=
    if st.forceSessionCompleted then .completed
    else if st.orderPlaced then .confirming
    else if !st.updatedCart.isEmpty then .ordering
    else .browsing
  let sess := { st.db.session with
    state := nextState, cart := st.updatedCart,
    messages := st.db.session.messages ++ [⟨.bot, "", none⟩] }
  ({ st.db with session := sess },
   ⟨"", st.updatedCart, st.orderPlaced, st.orderDetails, openWizard⟩)

/-- Process an extracted action list against the store: the action loop
seeded with the session's parsed cart, then the session update. -/
def processActions (menu : List MenuItem) (svcPct taxPct : Nat)
    (requestLabel : Option String) (openWizard : Bool) (actions : List Action) (db : Db) :
    Db × ChatResponse :=
  let st0 : TurnState := ⟨db, db.session.cart, false, none, false⟩
  let st := actions.foldl (stepAction menu svcPct taxPct requestLabel) st0
  finishTurn openWizard st

/-- A guardrail short-circuit: persist the user message and the canned
localized reply tagged with the guardrail kind, mutate nothing else, and
answer with an empty cart, `orderPlaced=false`, `openMenuWizard=false`. -/
def persistGuardrailTurn (g : Guardrail) (msg reply : String) (db : Db) : Db × ChatResponse :=
  let sess := { db.session with
    messages := db.session.messages ++ [⟨.user, msg, none⟩, ⟨.bot, reply, some g⟩] }
  ({ db with session := sess }, ⟨reply, [], false, none, false⟩)

/-- A whole chat turn with the oracle disabled: guardrails in their fixed
order, then the persisted user message, the fallback extractor, and the
action loop. -/
def chatTurnFallback (menu : List MenuItem) (svcPct taxPct : Nat) (msg : String)
    (requestLabel : Option String) (db : Db) : Db × ChatResponse :=
  let locale := detectLocale msg
  let wizard := isMenuIntent msg
  if isPromptInjection msg then
    persistGuardrailTurn .promptInjection msg (localizedFallback locale .safe) db
  else if isAbusive msg then
    persistGuardrailTurn .abuse msg (localizedFallback locale .abuse) db
  else if isFaultyMessage msg then
    persistGuardrailTurn .faultyInput msg (localizedFallback locale .clarify) db
  else
    let db' := { db with session := { db.session with
      messages := db.session.messages ++ [⟨.user, msg, none⟩] } }
    let actions := fallbackActions menu msg requestLabel db'.session.cart
    processActions menu svcPct taxPct requestLabel wizard actions db'

/-- Rewrite every order's notes field (e.g. to re-link orders to a
different originating session); selection queries that ignore session
linkage are invariant under this. -/
def mapNotes (f : String → String) (db : Db) : Db :=
  { db with orders := db.orders.map (fun o => { o with notes := f o.notes }) }

/-! ## Concrete fixtures used by closed theorems and witnesses -/

def momoMenu : List MenuItem := [⟨1, "Momo", 150⟩]

def freshSessionDb : Db := ⟨[], [], ⟨1, .browsing, [], []⟩, 1⟩

def completedSessionDb : Db := ⟨[], [], ⟨7, .completed, [], []⟩, 1⟩

def openOrd : Order :=
  ⟨5, 41, some 10, .confirmed, .pending, [⟨1, "Momo", 150, 2, 300⟩], 300, 30, 39, 369,
   "CHAT_SESSION:3"⟩

def openOrderDb : Db := ⟨[openOrd], [⟨10, "T-01", .occupied⟩], ⟨7, .browsing, [], []⟩, 42⟩

def orderingSessionDb : Db :=
  ⟨[openOrd], [⟨10, "T-01", .occupied⟩], ⟨7, .ordering, [⟨1, "Momo", 150, 1, 150⟩], []⟩, 42⟩

def conflictDb : Db :=
  ⟨[{ openOrd with orderNumber := 42, status := .paid }], [], ⟨7, .browsing, [], []⟩, 42⟩

/-- Total quantity an order's item list carries for one menu item id. -/
def itemQty : List OrderItem → Nat → Nat
  | [], _ => 0
  | i :: rest, mid => (if i.menuItemId = mid then i.quantity else 0) + itemQty rest mid

/-- Total quantity a cart carries for one menu item id. -/
def lineQty : List CartLine → Nat → Nat
  | [], _ => 0
  | c :: rest, mid => (if c.id = mid then c.qty else 0) + lineQty rest mid

/-- Forget the notes field (the session back-reference) of an order. -/
def eraseNotes (o : Order) : Order := { o with notes := "" }

/-- The same store viewed by a different chat session. -/
def setSessionId (db : Db) (sid : Nat) : Db :=
  { db with session := { db.session with id := sid } }

/-! ## Claim theorems -/

/-- C2: the spec requires that once a chat session is COMPLETED, a
further turn carrying ADD_ITEM actions leaves its cart empty and never
moves it back to ORDERING.  The handler never consults the stored
session state: evaluated on a COMPLETED session with an empty cart, the
turn for the message "momo" (whose fallback extraction is exactly
`ADD_ITEM(Momo,1)`) refills the cart and rewrites the session state to
ORDERING, contradicting the claim. -/
theorem c2_completed_session_revived_by_add_item :
    fallbackActions momoMenu "momo" none [] = [.addItem "Momo" 1] ∧
    completedSessionDb.session.state = .completed ∧
    completedSessionDb.session.cart = [] ∧
    (chatTurnFallback momoMenu 0 0 "momo" none completedSessionDb).1.session.state
      = .ordering ∧
    (chatTurnFallback momoMenu 0 0 "momo" none completedSessionDb).1.session.cart
      = [⟨1, "Momo", 150, 1, 150⟩] := by
  decide

/-- C3: counterexample — for the tenant with "Momo" at Rs.150 and the
message "2 momo please" on an empty cart with no table, the fallback
extractor emits `ADD_ITEM(Momo,1)` (its qty is the constant 1, the
leading "2" is never parsed), and the cart becomes one Momo at total
150, not qty 2 / total 300 as the claim states. -/
theorem c3_fallback_qty_counterexample :
    fallbackActions momoMenu "2 momo please" none [] = [.addItem "Momo" 1] ∧
    fallbackActions momoMenu "2 momo please" none [] ≠ [.addItem "Momo" 2] ∧
    (chatTurnFallback momoMenu 0 0 "2 momo please" none freshSessionDb).2.cart
      = [⟨1, "Momo", 150, 1, 150⟩] ∧
    (chatTurnFallback momoMenu 0 0 "2 momo please" none freshSessionDb).2.cart
      ≠ [⟨1, "Momo", 150, 2, 300⟩] := by
  decide

/-- C3 (amended): with the oracle disabled, for a tenant whose menu has
"Momo" at Rs.150, the message "2 momo please" on an empty cart with no
table makes the fallback extractor emit ADD_ITEM(Momo,1), the resulting
cart equal [{Momo, qty:1, total:150}], and the response carry
orderPlaced=false. -/
theorem c3_fallback_scenario_amended :
    fallbackActions momoMenu "2 momo please" none [] = [.addItem "Momo" 1] ∧
    (chatTurnFallback momoMenu 0 0 "2 momo please" none freshSessionDb).2.cart
      = [⟨1, "Momo", 150, 1, 150⟩] ∧
    (chatTurnFallback momoMenu 0 0 "2 momo please" none freshSessionDb).2.orderPlaced
      = false := by
  decide

/-- C5: counterexample — the cart invariant is not preserved from an
arbitrary invariant-satisfying cart.  ADD_ITEM recomputes the merged
line's total from the menu's current price while keeping the line's
stored unit price, so starting from the invariant-satisfying cart
[{id 1, price 150, qty 1, total 150}] against a menu where item 1 now
costs 200, one ADD_ITEM yields {price 150, qty 2, total 400}, violating
lineTotal == unitPrice * qty. -/
theorem c5_cart_invariant_counterexample :
    cartInv [⟨1, "Momo", 150, 1, 150⟩] ∧
    runCart [⟨1, "Momo", 200⟩] [⟨1, "Momo", 150, 1, 150⟩] [.addItem "Momo" 1]
      = [⟨1, "Momo", 150, 2, 400⟩] ∧
    ¬ cartInv (runCart [⟨1, "Momo", 200⟩] [⟨1, "Momo", 150, 1, 150⟩]
        [.addItem "Momo" 1]) := by
  decide

/-- C9: applying ADD_ITEM(x, 2) twice in succession to an empty cart,
for any menu item x (the case-insensitive name lookup resolving to x),
yields exactly one line for x with qty 4, not two separate lines. -/
theorem c9_double_add_merges (menu : List MenuItem) (x : MenuItem)
    (hx : findMenuItem menu x.name = some x) :
    runCart menu [] [.addItem x.name 2, .addItem x.name 2]
      = [⟨x.id, x.name, x.price, 4, 4 * x.price⟩] := by
  simp [runCart, applyCartAction, addToCart, hx, bumpFirst]

theorem c9_double_add_merges_witness :
    runCart momoMenu [] [.addItem "Momo" 2, .addItem "Momo" 2]
      = [⟨1, "Momo", 150, 4, 600⟩] :=
  c9_double_add_merges momoMenu ⟨1, "Momo", 150⟩ (by decide)

/-- C4: a message matching the abuse pattern but not the injection
pattern — whether or not it also matches a menu-intent pattern — has its
turn persist the user message plus the canned localized abuse-deflection
reply tagged ABUSE, mutate no cart or order state, and answer
orderPlaced=false and openMenuWizard=false; and the guardrail checks run
in the fixed order injection, abuse, unparseability. -/
theorem c4_abuse_short_circuits (menu : List MenuItem) (svcPct taxPct : Nat) (msg : String)
    (requestLabel : Option String) (db : Db)
    (hab : isAbusive msg = true) (hinj : isPromptInjection msg = false) :
    (chatTurnFallback menu svcPct taxPct msg requestLabel db).1.orders = db.orders ∧
    (chatTurnFallback menu svcPct taxPct msg requestLabel db).1.tables = db.tables ∧
    (chatTurnFallback menu svcPct taxPct msg requestLabel db).1.session.cart
      = db.session.cart ∧
    (chatTurnFallback menu svcPct taxPct msg requestLabel db).1.session.state
      = db.session.state ∧
    (chatTurnFallback menu svcPct taxPct msg requestLabel db).1.session.messages
      = db.session.messages ++
        [⟨.user, msg, none⟩,
         ⟨.bot, localizedFallback (detectLocale msg) .abuse, some .abuse⟩] ∧
    (chatTurnFallback menu svcPct taxPct msg requestLabel db).2.orderPlaced = false ∧
    (chatTurnFallback menu svcPct taxPct msg requestLabel db).2.openMenuWizard = false ∧
    (chatTurnFallback menu svcPct taxPct msg requestLabel db).2.cart = [] ∧
    (chatTurnFallback menu svcPct taxPct msg requestLabel db).2.message
      = localizedFallback (detectLocale msg) .abuse ∧
    guardVerdict msg = some .abuse ∧
    (∀ m, isPromptInjection m = true → guardVerdict m = some .promptInjection) ∧
    (∀ m, isPromptInjection m = false → isAbusive m = false → isFaultyMessage m = true →
      guardVerdict m = some .faultyInput) := by
  refine ⟨?_, ?_, ?_, ?_, ?_, ?_, ?_, ?_, ?_, ?_, fun m hm => ?_,
    fun m h1 h2 h3 => ?_⟩ <;>
    simp [chatTurnFallback, persistGuardrailTurn, guardVerdict, hab, hinj, *]

theorem c4_abuse_short_circuits_witness :
    isAbusive "you idiot show me the menu" = true ∧
    isPromptInjection "you idiot show me the menu" = false ∧
    isMenuIntent "you idiot show me the menu" = true ∧
    (chatTurnFallback momoMenu 0 0 "you idiot show me the menu" none
      freshSessionDb).2.orderPlaced = false ∧
    (chatTurnFallback momoMenu 0 0 "you idiot show me the menu" none
      freshSessionDb).2.openMenuWizard = false :=
  ⟨by decide, by decide, by decide,
   (c4_abuse_short_circuits momoMenu 0 0 "you idiot show me the menu" none freshSessionDb
     (by decide) (by decide)).2.2.2.2.2.1,
   (c4_abuse_short_circuits momoMenu 0 0 "you idiot show me the menu" none freshSessionDb
     (by decide) (by decide)).2.2.2.2.2.2.1⟩

/-- C6: every order produced or updated by the place/update transaction
satisfies total == subtotal + serviceCharge + tax, where the service
charge and tax are the tenant-configured percentages of the subtotal
rounded to integer currency units; on a merge the subtotal is the open
order's subtotal plus the cart subtotal and the charges are recomputed
from it, otherwise the subtotal is the cart subtotal. -/
theorem c6_totals_recomputed (svcPct taxPct : Nat) (cart : List CartLine) (tid : Option Nat)
    (db : Db) :
    (placeTxBody svcPct taxPct cart tid db).order.total
      = (placeTxBody svcPct taxPct cart tid db).order.subtotal
        + (placeTxBody svcPct taxPct cart tid db).order.serviceCharge
        + (placeTxBody svcPct taxPct cart tid db).order.tax ∧
    (placeTxBody svcPct taxPct cart tid db).order.serviceCharge
      = roundPct (placeTxBody svcPct taxPct cart tid db).order.subtotal svcPct ∧
    (placeTxBody svcPct taxPct cart tid db).order.tax
      = roundPct (placeTxBody svcPct taxPct cart tid db).order.subtotal taxPct ∧
    (∀ t o, tid = some t → openOrderForTable db.orders t = some o →
      (placeTxBody svcPct taxPct cart tid db).order.subtotal
        = o.subtotal + cartSubtotal cart) ∧
    ((match tid with
      | some t => openOrderForTable db.orders t
      | none => none) = none →
      (placeTxBody svcPct taxPct cart tid db).order.subtotal = cartSubtotal cart) := by
  rcases tid with _ | t
  · simp [placeTxBody]
  · rcases h : openOrderForTable db.orders t with _ | o <;>
      simp [placeTxBody, h]
    · rintro t1 o rfl ho
      rw [h] at ho
      cases ho
    · rintro t1 o1 rfl ho
      rw [h] at ho
      cases ho
      rfl

theorem c6_totals_recomputed_witness :
    (placeTxBody 10 13 [⟨1, "Momo", 150, 1, 150⟩] (some 10) openOrderDb).order.subtotal
      = openOrd.subtotal + cartSubtotal [⟨1, "Momo", 150, 1, 150⟩] ∧
    (placeTxBody 10 13 [⟨1, "Momo", 150, 1, 150⟩] (some 10) openOrderDb).order.total
      = (placeTxBody 10 13 [⟨1, "Momo", 150, 1, 150⟩] (some 10) openOrderDb).order.subtotal
        + (placeTxBody 10 13 [⟨1, "Momo", 150, 1, 150⟩] (some 10) openOrderDb).order.serviceCharge
        + (placeTxBody 10 13 [⟨1, "Momo", 150, 1, 150⟩] (some 10) openOrderDb).order.tax :=
  ⟨(c6_totals_recomputed 10 13 [⟨1, "Momo", 150, 1, 150⟩] (some 10) openOrderDb).2.2.2.1
      10 openOrd rfl (by decide),
   (c6_totals_recomputed 10 13 [⟨1, "Momo", 150, 1, 150⟩] (some 10) openOrderDb).1⟩

/-- C10: when a CANCEL_ORDER or CONFIRM_PAYMENT action carries no
resolvable table reference (no action tableId and no request
tableLabel), the label resolves to none, the target lookup drops the
table filter entirely and selects the tenant's most recent non-terminal
order across all tables, and the branch transitions that order — whatever
table it belongs to — while completing the issuing session. -/
theorem c10_close_without_label_hits_any_table (kind : CloseKind) (db : Db) :
    resolvedLabel none none = none ∧
    targetOrder db none = db.orders.find? (fun o => !o.status.isTerminal) ∧
    (∀ o, targetOrder db none = some o →
      ∃ o', (closeOrderBranch kind none db).closed = some o' ∧ o'.id = o.id ∧
        o'.tableId = o.tableId ∧ o'.status = closeStatus kind ∧
        (closeOrderBranch kind none db).db.session.state = .completed) := by
  refine ⟨by decide, ?_, ?_⟩
  · unfold targetOrder
    simp
  · intro o h
    unfold closeOrderBranch
    rw [h]
    exact ⟨_, rfl, rfl, rfl, rfl, rfl⟩

theorem c10_close_without_label_hits_any_table_witness :
    ∃ o', (closeOrderBranch .cancelOrder none openOrderDb).closed = some o' ∧
      o'.id = openOrd.id ∧ o'.tableId = openOrd.tableId ∧
      o'.status = closeStatus .cancelOrder ∧
      (closeOrderBranch .cancelOrder none openOrderDb).db.session.state = .completed :=
  (c10_close_without_label_hits_any_table .cancelOrder openOrderDb).2.2 openOrd (by decide)

/-! ## Retry-loop lemmas -/

theorem retryPlace_exhausted (f : Nat → Except TxErr PlaceResult)
    (h : ∀ i, i < 3 → f i = .error .p2002) : retryPlace f = .error .p2002 := by
  simp [retryPlace, h 0 (by omega), h 1 (by omega), h 2 (by omega)]

theorem retryPlace_recovers (f : Nat → Except TxErr PlaceResult) (r : PlaceResult) (k : Nat)
    (hk : k < 3) (hok : f k = .ok r)
    (hfail : ∀ j, j < k → f j = .error .p2002) : retryPlace f = .ok r := by
  interval_cases k
  · simp [retryPlace, hok]
  · simp [retryPlace, hfail 0 (by omega), hok]
  · simp [retryPlace, hfail 0 (by omega), hfail 1 (by omega), hok]

theorem retryPlace_ok_src (f : Nat → Except TxErr PlaceResult) (r : PlaceResult)
    (h : retryPlace f = .ok r) : ∃ k, k < 3 ∧ f k = .ok r := by
  unfold retryPlace at h
  rcases h0 : f 0 with e0 | r0 <;> rw [h0] at h <;> simp at h
  · by_cases he : e0 = .p2002
    · rw [if_pos he] at h
      rcases h1 : f 1 with e1 | r1 <;> rw [h1] at h <;> simp at h
      · by_cases he1 : e1 = .p2002
        · rw [if_pos he1] at h
          exact ⟨2, by omega, h⟩
        · rw [if_neg he1] at h
          simp at h
      · exact ⟨1, by omega, by rw [h1, h]⟩
    · rw [if_neg he] at h
      simp at h
  · exact ⟨0, by omega, by rw [h0, h]⟩

/-- C7: the whole place/update transaction (each attempt re-running the
open-order re-check against the then-current store) is retried on a
uniqueness conflict with a bound of 3 attempts: if every attempt raises
P2002 the loop surfaces the failure rather than succeeding or swallowing
it; a success after earlier conflicts is returned; and any returned
order comes from one of the at most 3 full transaction runs. -/
theorem c7_retry_bound (svcPct taxPct : Nat) (cart : List CartLine) (tid : Option Nat)
    (dbs : Nat → Db) :
    ((∀ i, i < 3 → placeTxAttempt svcPct taxPct cart tid (dbs i) = .error .p2002) →
      retryPlace (fun i => placeTxAttempt svcPct taxPct cart tid (dbs i))
        = .error .p2002) ∧
    (∀ r k, k < 3 → placeTxAttempt svcPct taxPct cart tid (dbs k) = .ok r →
      (∀ j, j < k → placeTxAttempt svcPct taxPct cart tid (dbs j) = .error .p2002) →
      retryPlace (fun i => placeTxAttempt svcPct taxPct cart tid (dbs i)) = .ok r) ∧
    (∀ r, retryPlace (fun i => placeTxAttempt svcPct taxPct cart tid (dbs i)) = .ok r →
      ∃ k, k < 3 ∧ placeTxAttempt svcPct taxPct cart tid (dbs k) = .ok r) :=
  ⟨fun h => retryPlace_exhausted _ h,
   fun r k hk hok hfail => retryPlace_recovers _ r k hk hok hfail,
   fun r h => retryPlace_ok_src _ r h⟩

theorem c7_retry_bound_witness :
    retryPlace (fun i => placeTxAttempt 10 13 [⟨1, "Momo", 150, 1, 150⟩] none
      ((fun _ => conflictDb) i)) = .error .p2002 :=
  (c7_retry_bound 10 13 [⟨1, "Momo", 150, 1, 150⟩] none (fun _ => conflictDb)).1
    (fun i _ => by decide)

/-! ## Close-branch lemmas -/

theorem setTableStatus_mem_status (tables : List Table) (t : Nat) (st : TableStatus)
    (tb : Table) (h : tb ∈ setTableStatus tables t st) (hid : tb.id = t) :
    tb.status = st := by
  unfold setTableStatus at h
  rcases List.mem_map.1 h with ⟨tb0, hmem, heq⟩
  by_cases h0 : (tb0.id == t) = true
  · rw [if_pos h0] at heq
    rw [← heq]
  · rw [if_neg h0] at heq
    subst heq
    exact absurd (beq_iff_eq.2 hid) h0

theorem replaceOrder_self_mem (orders : List Order) (o o' : Order)
    (hmem : o ∈ orders) (hid : o'.id = o.id) : o' ∈ replaceOrder orders o' := by
  unfold replaceOrder
  have hmap := List.mem_map_of_mem (fun p => if p.id == o'.id then o' else p) hmem
  simpa [hid] using hmap

/-- C8: for a CANCEL_ORDER or CONFIRM_PAYMENT whose table reference
resolves to label L and finds a target, the target is the most recent
non-terminal order for that table (every more recent order is terminal
or on another table); the branch transitions it to CANCELLED or PAID,
sets the table to AVAILABLE when no other non-terminal order references
it, and completes the issuing session with its cart cleared; and the
target selection ignores the orders' session linkage (notes) entirely,
so any session for the table closes the same order. -/
theorem c8_close_order_semantics (kind : CloseKind) (L : String) (db : Db) (o : Order)
    (h : targetOrder db (some L) = some o) :
    (o ∈ db.orders ∧ o.status.isTerminal = false ∧
      orderTableLabel db.tables o = some L) ∧
    (∃ pre post, db.orders = pre ++ o :: post ∧
      ∀ p ∈ pre, ¬(p.status.isTerminal = false ∧ orderTableLabel db.tables p = some L)) ∧
    (∃ o', (closeOrderBranch kind (some L) db).closed = some o' ∧ o'.id = o.id ∧
      o'.orderNumber = o.orderNumber ∧ o'.status = closeStatus kind ∧
      o' ∈ (closeOrderBranch kind (some L) db).db.orders) ∧
    (∀ t, o.tableId = some t →
      ((closeOrderBranch kind (some L) db).db.orders.filter (fun p =>
          p.tableId == some t && !p.status.isTerminal && p.id != o.id)).length = 0 →
      ∀ tb ∈ (closeOrderBranch kind (some L) db).db.tables, tb.id = t →
        tb.status = .available) ∧
    ((closeOrderBranch kind (some L) db).db.session.state = .completed ∧
     (closeOrderBranch kind (some L) db).db.session.cart = []) ∧
    (∀ f : String → String,
      targetOrder (mapNotes f db) (some L) = some { o with notes := f o.notes }) := by
  unfold targetOrder at h
  have hpred := List.find?_some h
  have hmem := List.mem_of_find?_eq_some h
  simp only [Bool.and_eq_true, Bool.not_eq_true', beq_iff_eq] at hpred
  refine ⟨⟨hmem, hpred.1, hpred.2⟩, ?_, ?_, ?_, ?_, ?_⟩
  · rcases List.find?_eq_some.1 h with ⟨-, pre, post, heq, hall⟩
    refine ⟨pre, post, heq, fun p hp => ?_⟩
    have hfalse := hall p hp
    simp only [Bool.not_eq_eq_eq_not, Bool.not_true, Bool.and_eq_false_iff,
      Bool.not_eq_false', beq_eq_false_iff_ne] at hfalse
    rintro ⟨h1, h2⟩
    rcases hfalse with h3 | h3
    · rw [h1] at h3
      cases h3
    · exact h3 h2
  · unfold closeOrderBranch targetOrder
    rw [h]
    refine ⟨_, rfl, rfl, rfl, rfl, ?_⟩
    exact replaceOrder_self_mem db.orders o _ hmem rfl
  · intro t ht hcount tb htb hid
    unfold closeOrderBranch targetOrder at htb hcount
    rw [h] at htb hcount
    simp only [ht] at htb hcount
    rw [hcount] at htb
    simp only [beq_self_eq_true, if_true] at htb
    exact setTableStatus_mem_status db.tables t .available tb htb hid
  · unfold closeOrderBranch targetOrder
    rw [h]
    exact ⟨rfl, rfl⟩
  · intro f
    unfold targetOrder mapNotes
    simp only []
    rw [List.find?_map]
    have hcomp :
        ((fun p => !p.status.isTerminal && (orderTableLabel db.tables p == some L)) ∘
          (fun p => { p with notes := f p.notes }))
          = (fun p : Order => !p.status.isTerminal
              && (orderTableLabel db.tables p == some L)) := by
      funext p
      rfl
    rw [hcomp, h]
    rfl

theorem c8_close_order_semantics_witness :
    targetOrder openOrderDb (some "T-01") = some openOrd ∧
    (∃ o', (closeOrderBranch .confirmPayment (some "T-01") openOrderDb).closed = some o' ∧
      o'.id = openOrd.id ∧ o'.orderNumber = openOrd.orderNumber ∧
      o'.status = closeStatus .confirmPayment ∧
      o' ∈ (closeOrderBranch .confirmPayment (some "T-01") openOrderDb).db.orders) ∧
    (closeOrderBranch .confirmPayment (some "T-01") openOrderDb).db.session.state
      = .completed :=
  ⟨by decide,
   (c8_close_order_semantics .confirmPayment "T-01" openOrderDb openOrd (by decide)).2.2.1,
   (c8_close_order_semantics .confirmPayment "T-01" openOrderDb openOrd (by decide)).2.2.2.2.1.1⟩

/-! ## Merge lemmas -/

theorem itemQty_mergeCartLine (items : List OrderItem) (c : CartLine) (mid : Nat) :
    itemQty (mergeCartLine items c) mid
      = itemQty items mid + (if c.id = mid then c.qty else 0) := by
  induction items with
  | nil =>
    simp only [mergeCartLine, itemQty, newOrderItem]
    split_ifs <;> omega
  | cons i rest ih =>
    by_cases hic : (i.menuItemId == c.id) = true
    · have hic' : i.menuItemId = c.id := by simpa using hic
      simp only [mergeCartLine, if_pos hic, itemQty]
      split_ifs <;> omega
    · simp only [mergeCartLine, if_neg hic, itemQty, ih]
      split_ifs <;> omega

theorem itemQty_mergeCart (items : List OrderItem) (cart : List CartLine) (mid : Nat) :
    itemQty (mergeCart items cart) mid = itemQty items mid + lineQty cart mid := by
  induction cart generalizing items with
  | nil => simp [mergeCart, lineQty]
  | cons c cs ih =>
    have hfold : mergeCart items (c :: cs) = mergeCart (mergeCartLine items c) cs := rfl
    rw [hfold, ih, itemQty_mergeCartLine]
    simp only [lineQty]
    omega

theorem mem_ids_mergeCartLine (items : List OrderItem) (c : CartLine) (mid : Nat) :
    mid ∈ (mergeCartLine items c).map OrderItem.menuItemId ↔
      mid ∈ items.map OrderItem.menuItemId ∨ mid = c.id := by
  induction items with
  | nil => simp [mergeCartLine, newOrderItem]
  | cons i rest ih =>
    by_cases hic : (i.menuItemId == c.id) = true
    · have hic' : i.menuItemId = c.id := by simpa using hic
      simp [mergeCartLine, hic']
      tauto
    · simp only [mergeCartLine, if_neg hic, List.map_cons, List.mem_cons, ih]
      tauto

theorem mem_ids_mergeCart (items : List OrderItem) (cart : List CartLine) (mid : Nat) :
    mid ∈ (mergeCart items cart).map OrderItem.menuItemId ↔
      mid ∈ items.map OrderItem.menuItemId ∨ mid ∈ cart.map CartLine.id := by
  induction cart generalizing items with
  | nil => simp [mergeCart]
  | cons c cs ih =>
    have hfold : mergeCart items (c :: cs) = mergeCart (mergeCartLine items c) cs := rfl
    rw [hfold, ih, mem_ids_mergeCartLine]
    simp only [List.map_cons, List.mem_cons]
    tauto

/-- C1: for a PLACE_ORDER/UPDATE_ORDER with a non-empty cart whose table
reference resolves to table t: when a non-terminal order exists for t
the cart is merged into it — the result keeps that order's id, no order
is created, per-menu-item quantities add, and the merged item set is the
union of the order's and the cart's; when none exists a new order is
created carrying the freshly allocated tenant-scoped number (distinct
from every existing number when the sequence dominates them) and exactly
the cart's lines.  The merge-vs-create outcome and the resulting order
rows (up to the session back-reference in notes) are independent of the
issuing session's identity. -/
theorem c1_merge_vs_create (svcPct taxPct : Nat) (cart : List CartLine) (t : Nat) (db : Db)
    (_hcart : cart ≠ []) :
    (∀ o, openOrderForTable db.orders t = some o →
      (placeTxBody svcPct taxPct cart (some t) db).order.id = o.id ∧
      (placeTxBody svcPct taxPct cart (some t) db).db.orders.length = db.orders.length ∧
      (∀ mid, itemQty (placeTxBody svcPct taxPct cart (some t) db).order.items mid
        = itemQty o.items mid + lineQty cart mid) ∧
      (∀ mid, (mid ∈ ((placeTxBody svcPct taxPct cart (some t) db).order.items.map
          OrderItem.menuItemId)) ↔
        (mid ∈ o.items.map OrderItem.menuItemId ∨ mid ∈ cart.map CartLine.id))) ∧
    (openOrderForTable db.orders t = none →
      (placeTxBody svcPct taxPct cart (some t) db).db.orders.length
        = db.orders.length + 1 ∧
      (placeTxBody svcPct taxPct cart (some t) db).order.orderNumber
        = db.nextOrderNumber ∧
      (placeTxBody svcPct taxPct cart (some t) db).order
        ∈ (placeTxBody svcPct taxPct cart (some t) db).db.orders ∧
      (placeTxBody svcPct taxPct cart (some t) db).order.items = cart.map newOrderItem ∧
      ((∀ p ∈ db.orders, p.orderNumber < db.nextOrderNumber) →
        ∀ p ∈ db.orders,
          (placeTxBody svcPct taxPct cart (some t) db).order.orderNumber
            ≠ p.orderNumber)) ∧
    (∀ s1 s2 : Nat,
      ((placeTxBody svcPct taxPct cart (some t) (setSessionId db s1)).db.orders.map
        eraseNotes)
        = ((placeTxBody svcPct taxPct cart (some t) (setSessionId db s2)).db.orders.map
          eraseNotes)) := by
  refine ⟨?_, ?_, ?_⟩
  · intro o ho
    refine ⟨?_, ?_, fun mid => ?_, fun mid => ?_⟩
    · simp only [placeTxBody, ho]
    · simp [placeTxBody, ho, replaceOrder]
    · simp only [placeTxBody, ho]
      simpa using itemQty_mergeCart o.items cart mid
    · simp only [placeTxBody, ho]
      simpa using mem_ids_mergeCart o.items cart mid
  · intro ho
    refine ⟨?_, ?_, ?_, ?_, ?_⟩
    · simp [placeTxBody, ho]
    · simp only [placeTxBody, ho]
    · simp only [placeTxBody, ho]
      exact List.mem_cons_self _ _
    · simp only [placeTxBody, ho]
    · intro hlt p hp
      simp only [placeTxBody, ho]
      intro heq
      have hlt' := hlt p hp
      omega
  · intro s1 s2
    simp only [placeTxBody, setSessionId]
    cases ho : openOrderForTable db.orders t with
    | none =>
      simp only [ho]
      rfl
    | some o =>
      simp only [ho, replaceOrder]
      rw [List.map_map, List.map_map]
      apply List.map_congr_left
      intro p hp
      by_cases hpo : (p.id == o.id) = true <;>
        simp [Function.comp, eraseNotes, hpo]

theorem c1_merge_vs_create_witness :
    (placeTxBody 10 13 [⟨1, "Momo", 150, 1, 150⟩] (some 10) openOrderDb).order.id
      = openOrd.id ∧
    itemQty (placeTxBody 10 13 [⟨1, "Momo", 150, 1, 150⟩] (some 10)
        openOrderDb).order.items 1
      = itemQty openOrd.items 1 + lineQty [⟨1, "Momo", 150, 1, 150⟩] 1 :=
  ⟨((c1_merge_vs_create 10 13 [⟨1, "Momo", 150, 1, 150⟩] 10 openOrderDb (by decide)).1
      openOrd (by decide)).1,
   ((c1_merge_vs_create 10 13 [⟨1, "Momo", 150, 1, 150⟩] 10 openOrderDb (by decide)).1
      openOrd (by decide)).2.2.1 1⟩

/-! ## Cart-invariant preservation lemmas -/

theorem menu_item_eq_of_id_eq (menu : List MenuItem)
    (hm : (menu.map MenuItem.id).Nodup) (m m' : MenuItem)
    (hmem : m ∈ menu) (hmem' : m' ∈ menu) (hid : m'.id = m.id) : m' = m :=
  List.inj_on_of_nodup_map hm hmem' hmem hid

theorem mem_ids_bumpFirst (m : MenuItem) (q : Nat) (cart : List CartLine) (x : Nat)
    (hx : x ∈ (bumpFirst m q cart).map CartLine.id) :
    x ∈ cart.map CartLine.id ∨ x = m.id := by
  induction cart with
  | nil => simpa [bumpFirst] using hx
  | cons c rest ih =>
    by_cases hc : (c.id == m.id) = true
    · simp only [bumpFirst, if_pos hc, List.map_cons, List.mem_cons] at hx ⊢
      tauto
    · simp only [bumpFirst, if_neg hc, List.map_cons, List.mem_cons] at hx ⊢
      rcases hx with h | h
      · tauto
      · rcases ih h with h2 | h2 <;> tauto

theorem bumpFirst_preserves (menu : List MenuItem)
    (hm : (menu.map MenuItem.id).Nodup) (m : MenuItem) (hmem : m ∈ menu)
    (q : Nat) (hq : 0 < q) (cart : List CartLine) :
    cartInv cart → menuConsistent menu cart →
      cartInv (bumpFirst m q cart) ∧ menuConsistent menu (bumpFirst m q cart) := by
  induction cart with
  | nil =>
    intro _ _
    refine ⟨⟨?_, ?_⟩, ?_⟩
    · intro d hd
      simp only [bumpFirst, List.mem_singleton] at hd
      subst hd
      exact ⟨(Nat.mul_comm m.price q).symm, hq⟩
    · simp [bumpFirst]
    · intro d hd m' hm' hid
      simp only [bumpFirst, List.mem_singleton] at hd
      subst hd
      have hmm : m' = m := menu_item_eq_of_id_eq menu hm m m' hmem hm' (by simpa using hid)
      rw [hmm]
  | cons c rest ih =>
    rintro ⟨hlines, hnodup⟩ hpc
    by_cases hcm : (c.id == m.id) = true
    · have hcm' : c.id = m.id := by simpa using hcm
      have hcp : c.price = m.price :=
        hpc c (List.mem_cons_self c rest) m hmem hcm'.symm
      refine ⟨⟨?_, ?_⟩, ?_⟩
      · intro d hd
        simp only [bumpFirst, if_pos hcm, List.mem_cons] at hd
        rcases hd with rfl | hd
        · refine ⟨?_, ?_⟩
          · show (c.qty + q) * m.price = c.price * (c.qty + q)
            rw [hcp]
            ring
          · show 0 < c.qty + q
            have := (hlines c (List.mem_cons_self c rest)).2
            omega
        · exact hlines d (List.mem_cons_of_mem _ hd)
      · simp only [bumpFirst, if_pos hcm, List.map_cons]
        simpa using hnodup
      · intro d hd m' hm' hid
        simp only [bumpFirst, if_pos hcm, List.mem_cons] at hd
        rcases hd with rfl | hd
        · exact hpc c (List.mem_cons_self c rest) m' hm' (by simpa using hid)
        · exact hpc d (List.mem_cons_of_mem _ hd) m' hm' hid
    · have hnd : c.id ∉ rest.map CartLine.id ∧ (rest.map CartLine.id).Nodup := by
        have h := hnodup
        rw [List.map_cons, List.nodup_cons] at h
        exact h
      have hrest := ih ⟨fun d hd => hlines d (List.mem_cons_of_mem _ hd), hnd.2⟩
        (fun d hd m' hm' hid => hpc d (List.mem_cons_of_mem _ hd) m' hm' hid)
      refine ⟨⟨?_, ?_⟩, ?_⟩
      · intro d hd
        simp only [bumpFirst, if_neg hcm, List.mem_cons] at hd
        rcases hd with rfl | hd
        · exact hlines d (List.mem_cons_self _ _)
        · exact hrest.1.1 d hd
      · simp only [bumpFirst, if_neg hcm, List.map_cons]
        refine List.nodup_cons.2 ⟨?_, hrest.1.2⟩
        intro hin
        rcases mem_ids_bumpFirst m q rest c.id hin with h | h
        · exact hnd.1 h
        · exact absurd (by simpa using h) (by simpa using hcm)
      · intro d hd m' hm' hid
        simp only [bumpFirst, if_neg hcm, List.mem_cons] at hd
        rcases hd with rfl | hd
        · exact hpc d (List.mem_cons_self _ _) m' hm' hid
        · exact hrest.2 d hd m' hm' hid

theorem applyCartAction_preserves (menu : List MenuItem)
    (hm : (menu.map MenuItem.id).Nodup) (cart : List CartLine) (a : Action)
    (hc : cartInv cart) (hpc : menuConsistent menu cart) :
    cartInv (applyCartAction menu cart a) ∧
      menuConsistent menu (applyCartAction menu cart a) := by
  cases a with
  | addItem n q =>
    simp only [applyCartAction, addToCart]
    cases hfind : findMenuItem menu n with
    | none => exact ⟨hc, hpc⟩
    | some m =>
      have hmem : m ∈ menu := List.mem_of_find?_eq_some hfind
      refine bumpFirst_preserves menu hm m hmem _ ?_ cart hc hpc
      cases q <;> simp
  | removeItem n =>
    simp only [applyCartAction, removeFromCart]
    refine ⟨⟨?_, ?_⟩, ?_⟩
    · exact fun d hd => hc.1 d (List.mem_of_mem_filter hd)
    · exact ((List.filter_sublist cart).map CartLine.id).nodup hc.2
    · exact fun d hd m' hm' hid => hpc d (List.mem_of_mem_filter hd) m' hm' hid
  | placeOrder tid => exact ⟨hc, hpc⟩
  | updateOrder tid => exact ⟨hc, hpc⟩
  | confirmPayment tid => exact ⟨hc, hpc⟩
  | cancelOrder tid => exact ⟨hc, hpc⟩

theorem runCart_preserves (menu : List MenuItem)
    (hm : (menu.map MenuItem.id).Nodup) :
    ∀ (acts : List Action) (cart : List CartLine), cartInv cart →
      menuConsistent menu cart →
      cartInv (runCart menu cart acts) ∧ menuConsistent menu (runCart menu cart acts) := by
  intro acts
  induction acts with
  | nil => exact fun cart hc hpc => ⟨hc, hpc⟩
  | cons a rest ih =>
    intro cart hc hpc
    have hstep := applyCartAction_preserves menu hm cart a hc hpc
    exact ih _ hstep.1 hstep.2

/-- C5 (amended): for a menu whose item ids are pairwise distinct, every
cart the reducer produces from a starting cart that satisfies the
invariant and whose line unit prices agree with the current menu prices
again satisfies the invariant: every line has lineTotal ==
unitPrice * qty, qty > 0, and a menuItemId distinct from every other
line's.  (Without the price-agreement hypothesis the invariant is not
preserved — see the counterexample.) -/
theorem c5_cart_invariant_amended (menu : List MenuItem) (cart : List CartLine)
    (acts : List Action) (hm : (menu.map MenuItem.id).Nodup)
    (hc : cartInv cart) (hpc : menuConsistent menu cart) :
    cartInv (runCart menu cart acts) :=
  (runCart_preserves menu hm acts cart hc hpc).1

theorem c5_cart_invariant_amended_witness :
    cartInv (runCart momoMenu [] [.addItem "Momo" 2, .addItem "Momo" 2,
      .removeItem "x"]) :=
  c5_cart_invariant_amended momoMenu [] _ (by decide) (by decide) (by decide)

end QuickServe
